import Mathlib

/-!
Verification of the crypto signal pipeline of trade-radar-ai (`app/main.py`).

Numeric model: Python floats are modelled as exact rationals.  Python's
`round(x, n)` (round-half-to-even at decimal position `n`) is modelled by
`roundHalfEven` / `roundTo`.  `math.log10` is transcendental, so the one
function that consumes it (`score_coin`) takes the already-computed
logarithm of the volume as an argument, and all theorems about it quantify
over every possible value of that argument.  Gate and verdict values are
the string literals the source uses.  Configuration constants appear with
their documented env-var defaults (VOL_MIN_USD = 60000000, PCT_MIN = 2.0,
PCT_MAX = 25.0, TOP_N = 10, WHALE_THRESHOLD_USD = 750000,
SCALP_TARGET_MIN/MAX = 0.02/0.03, stop band 0.008/0.02,
CRYPTO_CACHE_TTL = 30).
-/

/-- Python `clamp(x, lo, hi) = max(lo, min(hi, x))` (`app/main.py` line 18). -/
def clamp (x lo hi : ℚ) : ℚ := max lo (min hi x)

/-- Python's banker rounding of a rational to the nearest integer:
round half to even. -/
def roundHalfEven (x : ℚ) : ℤ :=
  if x - (⌊x⌋ : ℚ) < 1/2 then ⌊x⌋
  else if 1/2 < x - (⌊x⌋ : ℚ) then ⌊x⌋ + 1
  else if ⌊x⌋ % 2 = 0 then ⌊x⌋ else ⌊x⌋ + 1

/-- Python `round(x, n)`: banker rounding at decimal position `n`. -/
def roundTo (n : ℕ) (x : ℚ) : ℚ := (roundHalfEven (x * 10 ^ n) : ℚ) / 10 ^ n

/-! ## Indicator library (`app/main.py` lines 149-168: `rsi`) -/

/-- Consecutive deltas `values[i] - values[i-1]`, the `d` of both loops of
`rsi`. -/
def diffs : List ℚ → List ℚ
  | [] => []
  | [_] => []
  | a :: b :: rest => (b - a) :: diffs (b :: rest)

/-- `max(d, 0.0)` of `rsi`. -/
def gain (d : ℚ) : ℚ := max d 0

/-- `max(-d, 0.0)` of `rsi`. -/
def loss (d : ℚ) : ℚ := max (-d) 0

/-- One Wilder smoothing step `avg = (avg*(period-1) + x) / period`. -/
def wilder (period : ℕ) (avg x : ℚ) : ℚ :=
  (avg * ((period : ℚ) - 1) + x) / (period : ℚ)

/-- Simple mean of `f` over the first `period` deltas: the seeding loop of
`rsi` (`for i in range(1, period+1)` followed by `sum(...)/period`). -/
def seedAvg (f : ℚ → ℚ) (values : List ℚ) (period : ℕ) : ℚ :=
  (((diffs values).take period).map f).sum / (period : ℚ)

/-- Wilder smoothing of the remaining deltas, seeded with the simple mean:
the second loop of `rsi` (`for i in range(period+1, len(values))`).  The
Python loop updates the gain average and the loss average side by side in a
single pass; the two recurrences are independent, so each is a fold of its
own over the same delta list. -/
def smoothAvg (f : ℚ → ℚ) (values : List ℚ) (period : ℕ) : ℚ :=
  ((diffs values).drop period).foldl (fun a d => wilder period a (f d))
    (seedAvg f values period)

/-- `avg_gain` as it stands after both loops of `rsi`. -/
def avgGain (values : List ℚ) (period : ℕ) : ℚ := smoothAvg gain values period

/-- `avg_loss` as it stands after both loops of `rsi`. -/
def avgLoss (values : List ℚ) (period : ℕ) : ℚ := smoothAvg loss values period

/-- `rsi(values, period)` (`app/main.py` lines 149-168). -/
def rsi (values : List ℚ) (period : ℕ) : Option ℚ :=
  if values.length < period + 1 then none
  else if avgLoss values period = 0 then some 100
  else some (100 - 100 / (1 + avgGain values period / avgLoss values period))

/-! ## Signal enricher (`app/main.py` lines 263-308: `simple_ai_signal`) -/

/-- One per-interval indicator snapshot as built by `get_indicators`:
fields `last`, `ema20`, `ema50`, `rsi`, `atr`, `atr_pct` (the `interval`
string field is presentation-only and omitted). -/
structure Ind where
  last : Option ℚ
  ema20 : Option ℚ
  ema50 : Option ℚ
  rsi : Option ℚ
  atr : Option ℚ
  atr_pct : Option ℚ
deriving DecidableEq

/-- `trend_label` nested in `simple_ai_signal` (lines 267-270):
`None` if either EMA is missing, else `"UP"` if `ema20 > ema50` else
`"DOWN"`. -/
def trend_label (ind : Ind) : Option String :=
  match ind.ema20, ind.ema50 with
  | some a, some b => some (if b < a then "UP" else "DOWN")
  | _, _ => none

/-- The guard `rsi4h is not None and rsi4h > 72` of `simple_ai_signal`. -/
def rsi_hot (o : Option ℚ) : Bool :=
  match o with
  | some r => decide (72 < r)
  | none => false

/-- `up_votes = sum(1 for t in (t1h, t4h, t1d) if t == "UP")`. -/
def up_votes (i1 i4 i1d : Ind) : ℕ :=
  (([trend_label i1, trend_label i4, trend_label i1d]).filter
    (fun t => t == some ("UP"))).length

/-- `down_votes = sum(1 for t in (t1h, t4h, t1d) if t == "DOWN")`. -/
def down_votes (i1 i4 i1d : Ind) : ℕ :=
  (([trend_label i1, trend_label i4, trend_label i1d]).filter
    (fun t => t == some ("DOWN"))).length

/-- `simple_ai_signal(ind1h, ind4h, ind1d, market_gate)` (lines 263-308),
returning the `(verdict, reasons)` pair. -/
def simple_ai_signal (ind1h ind4h ind1d : Ind) (market_gate : String) :
    String × List String :=
  if market_gate = "PANIC" then ("AVOID", ["Market PANIC: risk yüksek"])
  else
    let rsi4h := ind4h.rsi
    let up := up_votes ind1h ind4h ind1d
    let down := down_votes ind1h ind4h ind1d
    let reasons :=
      (if 2 ≤ up then ["Trend: çoklu timeframe UP"] else []) ++
      (if 2 ≤ down then ["Trend: çoklu timeframe DOWN"] else []) ++
      (match rsi4h with
       | some r =>
         if 72 < r then ["RSI(4h) yüksek (ısınmış)"]
         else if r < 35 then ["RSI(4h) düşük (bounce ihtimali)"]
         else ["RSI(4h) dengeli"]
       | none => [])
    let verdict0 :=
      if 2 ≤ down then "AVOID"
      else if 2 ≤ up then (if rsi_hot rsi4h then "WAIT" else "BUY")
      else "WAIT"
    let verdict :=
      if market_gate = "BEARISH" ∧ verdict0 = "BUY" then "WAIT" else verdict0
    let reasons2 :=
      if market_gate = "BEARISH" ∧ verdict0 = "BUY" then
        reasons ++ ["Market BEARISH: küçük pozisyon / temkin"]
      else reasons
    (verdict, reasons2.take 6)

/-- The verdict rule table exactly as the specification words it (section
4.5 step 4): PANIC short-circuits to AVOID, then two DOWN votes give AVOID,
then two UP votes give WAIT when the 4h RSI is `>72` and otherwise BUY
subject to the bearish downgrade, otherwise WAIT. -/
def verdict_table (i1 i4 i1d : Ind) (gate : String) : String :=
  if gate = "PANIC" then "AVOID"
  else if 2 ≤ down_votes i1 i4 i1d then "AVOID"
  else if 2 ≤ up_votes i1 i4 i1d then
    (if rsi_hot i4.rsi then "WAIT"
     else if gate = "BEARISH" then "WAIT" else "BUY")
  else "WAIT"

/-- Concrete indicator set whose trend label is UP (ema20 = 2 > 1 = ema50). -/
def indUp : Ind := ⟨none, some 2, some 1, none, none, none⟩

/-! ## Composite scorer (`app/main.py` lines 188-198: `score_coin`) -/

/-- Momentum term: `clamp((clamp(p24, -18, 22) + 18) / 40 * 100, 0, 100)`. -/
def momentum_term (p24 : ℚ) : ℚ :=
  clamp ((clamp p24 (-18) 22 + 18) / 40 * 100) 0 100

/-- Liquidity term, taking `lg = log10(max(vol24_usd, 1.0))` as argument:
`clamp((lg - 7.5) / (10.0 - 7.5) * 100, 0, 100)`. -/
def liquidity_term (lg : ℚ) : ℚ :=
  clamp ((lg - 7.5) / (10 - 7.5) * 100) 0 100

/-- Spread term: `clamp((0.010 - spread_hint) / (0.010 - 0.001) * 100, 0, 100)`. -/
def spread_term (spread : ℚ) : ℚ :=
  clamp ((0.010 - spread) / (0.010 - 0.001) * 100) 0 100

/-- `gate in ("BEARISH", "PANIC")`. -/
def gate_penalized (gate : String) : Bool :=
  gate == "BEARISH" || gate == "PANIC"

/-- The scorer's value before the final clamp-and-round: the weighted base
`0.34*momentum + 0.52*liquidity + 0.14*spread` minus the regime penalties
(6, and a further 4 when `p24 > 8`). -/
def base_score (p24 lg spread : ℚ) (gate : String) : ℚ :=
  let b := 0.34 * momentum_term p24 + 0.52 * liquidity_term lg
    + 0.14 * spread_term spread
  if gate_penalized gate then (if 8 < p24 then b - 6 - 4 else b - 6) else b

/-- `score_coin(p24, vol24_usd, spread_hint, gate)` with
`lg = log10(max(vol24_usd, 1.0))` precomputed: `round(clamp(base, 0, 100), 1)`. -/
def score_coin (p24 lg spread : ℚ) (gate : String) : ℚ :=
  roundTo 1 (clamp (base_score p24 lg spread gate) 0 100)

/-! ## Whale detector (`app/main.py` lines 425-447, inner loop of `whale_v2`) -/

/-- One record of the aggregated-trades tape: price `p`, quantity `q`,
buyer-is-maker flag `m`, epoch-millisecond timestamp `T`. -/
structure AggTrade where
  p : ℚ
  q : ℚ
  m : Bool
  T : ℤ
deriving DecidableEq

/-- One emitted whale event (the ISO-formatted local time string is kept as
the raw epoch-millisecond value `T`; formatting is presentation-only). -/
structure WhaleEvent where
  side : String
  usd : ℚ
  price : ℚ
  qty : ℚ
  T : ℤ
deriving DecidableEq

/-- The event appended for a trade above threshold: side `"SELL"` when the
buyer was the maker (taker sold), else `"BUY"`, with the rounded fields of
the source. -/
def whale_event_of (tr : AggTrade) : WhaleEvent :=
  ⟨if tr.m then "SELL" else "BUY", roundTo 2 (tr.p * tr.q),
   roundTo 8 tr.p, roundTo 6 tr.q, tr.T⟩

/-- One iteration of the `for tr in trades` loop of `whale_v2`: accumulate
the notional into the sell side when `m` is set, into the buy side
otherwise, and append a whale event when `notional >= threshold`. -/
def scan_step (threshold : ℚ) (acc : ℚ × ℚ × List WhaleEvent)
    (tr : AggTrade) : ℚ × ℚ × List WhaleEvent :=
  (if tr.m then acc.1 else acc.1 + tr.p * tr.q,
   if tr.m then acc.2.1 + tr.p * tr.q else acc.2.1,
   if threshold ≤ tr.p * tr.q then acc.2.2 ++ [whale_event_of tr] else acc.2.2)

/-- The whole per-symbol scan of `whale_v2`: buy notional, sell notional and
the emitted whale events, starting from `(0.0, 0.0, [])`. -/
def scan_trades (threshold : ℚ) (trades : List AggTrade) :
    ℚ × ℚ × List WhaleEvent :=
  trades.foldl (scan_step threshold) (0, 0, [])

/-- Total notional of the trades whose maker flag is clear (BUY aggressor). -/
def buy_notional (trades : List AggTrade) : ℚ :=
  ((trades.filter (fun tr => !tr.m)).map (fun tr => tr.p * tr.q)).sum

/-- Total notional of the trades whose maker flag is set (SELL aggressor). -/
def sell_notional (trades : List AggTrade) : ℚ :=
  ((trades.filter (fun tr => tr.m)).map (fun tr => tr.p * tr.q)).sum

/-- The whale events of a tape: one event per trade with
`notional >= threshold`, in tape order. -/
def whale_events (threshold : ℚ) (trades : List AggTrade) : List WhaleEvent :=
  (trades.filter (fun tr => decide (threshold ≤ tr.p * tr.q))).map whale_event_of

/-! ## Scalp filter (`app/main.py` lines 474-540: per-pick body of
`scalp_engine`) -/

/-- One emitted scalp opportunity.  Field order: entry, stop, take, tp_pct,
sl_pct, rr, rsi_1h, ai_signal (the symbol/pair/score/atr_pct_4h fields are
pass-throughs of the pick and carry no logic). -/
structure ScalpOpp where
  entry : ℚ
  stop : ℚ
  take : ℚ
  tp_pct : ℚ
  sl_pct : ℚ
  rr : ℚ
  rsi_1h : Option ℚ
  ai_signal : String
deriving DecidableEq

/-- The guard `rsi1h is not None and rsi1h > 75` of `scalp_engine`. -/
def rsi_over75 (o : Option ℚ) : Bool :=
  match o with
  | some r => decide (75 < r)
  | none => false

/-- The per-pick body of `scalp_engine` (lines 483-527): skip on PANIC gate,
AVOID verdict, non-positive ATR or price, or an overbought 1h RSI; otherwise
clamp the ATR-relative take fraction to [0.02, 0.03] and the stop fraction
to [0.008, 0.02] and emit entry/stop/take and the reward-risk quotient
`tp_pct / max(sl_pct, 1e-6)`. -/
def scalp_item (gate ai_signal : String) (price atrv : ℚ)
    (rsi1h : Option ℚ) : Option ScalpOpp :=
  if gate = "PANIC" then none
  else if ai_signal = "AVOID" then none
  else if atrv ≤ 0 ∨ price ≤ 0 then none
  else
    let tp_pct := clamp (1.8 * atrv / price) 0.02 0.03
    let sl_pct := clamp (1.2 * atrv / price) 0.008 0.02
    if rsi_over75 rsi1h then none
    else some ⟨roundTo 8 price, roundTo 8 (price * (1 - sl_pct)),
      roundTo 8 (price * (1 + tp_pct)), roundTo 2 (tp_pct * 100),
      roundTo 2 (sl_pct * 100), roundTo 2 (tp_pct / max sl_pct (1/1000000)),
      rsi1h, ai_signal⟩

/-- Concrete opportunity produced from gate NEUTRAL, verdict BUY,
price 100, 4h ATR 1.5, no 1h RSI. -/
def scalpOppW : ScalpOpp := ⟨100, 491/5, 1027/10, 27/10, 9/5, 3/2, none, "BUY"⟩

/-! ## Top-picks pipeline (`app/main.py` lines 310-405) -/

/-- A normalized snapshot row as assembled in `build_top_picks`. -/
structure Row where
  symbol : String
  pair : String
  price : ℚ
  chg24_pct : ℚ
  vol24_usd : ℚ
deriving DecidableEq

/-- A ranked candidate as appended to `picks` in `build_top_picks`
(`int(...)` truncates the nonnegative volume, hence the floor). -/
structure Pick where
  symbol : String
  pair : String
  price : ℚ
  chg24_pct : ℚ
  vol24_usd : ℤ
  score : ℚ
deriving DecidableEq

/-- The three `continue` guards of the picking loop of `build_top_picks`
(lines 335-342) with the default bounds: volume floor 60000000, absolute
24h-change band [2, 25], and the price floor 0.00001. -/
def passes_filters (r : Row) : Bool :=
  if r.vol24_usd < 60000000 then false
  else if |r.chg24_pct| < 2 ∨ 25 < |r.chg24_pct| then false
  else if r.price < 1/100000 then false
  else true

/-- The pick built from a surviving row (lines 344-352); `log10f` stands for
`math.log10`, applied to `max(vol, 1)` exactly as `score_coin` does, and the
spread hint keeps its default 0.002. -/
def pick_of (log10f : ℚ → ℚ) (gate : String) (r : Row) : Pick :=
  ⟨r.symbol, r.pair, roundTo 8 r.price, roundTo 2 r.chg24_pct,
   ⌊r.vol24_usd⌋, score_coin r.chg24_pct (log10f (max r.vol24_usd 1)) 0.002 gate⟩

/-- The ranked candidate list of `build_top_picks`: filter, score, sort by
score descending, truncate to the default TOP_N = 10. -/
def build_top_picks (log10f : ℚ → ℚ) (gate : String) (rows : List Row) :
    List Pick :=
  (((rows.filter passes_filters).map (pick_of log10f gate)).mergeSort
    (fun a b => decide (b.score ≤ a.score))).take 10

/-- The top-picks payload of `build_top_picks` / `get_crypto_top`; the
`filters` echo dictionary is presentation-only and omitted. -/
structure TopResult where
  ts : ℤ
  source : String
  market_mode : String
  market_gate : String
  btc_24h : ℚ
  eth_24h : ℚ
  median20_24h : ℚ
  index : ℚ
  top_picks : List Pick
  warnings : List String
deriving DecidableEq

/-- The degraded payload built in the `except` arm of `get_crypto_top`
(lines 399-402). -/
def fallback_top (now : ℤ) (e : String) : TopResult :=
  ⟨now, "binance_multi", "UNKNOWN", "UNKNOWN", 0, 0, 0, 0, [],
   ["Top build failed: " ++ e]⟩

/-- The `try/except` around `build_top_picks`: the build outcome is passed
in as an `Except` value (an exception value carries its message). -/
def recompute_top (now : ℤ) (build : Except String TopResult) : TopResult :=
  match build with
  | .ok out => out
  | .error e => fallback_top now e

/-- `get_crypto_top` (lines 394-405): serve the cache when it holds data no
older than CRYPTO_CACHE_TTL = 30 seconds, otherwise recompute (degrading on
failure) and store.  Returns the served value together with the updated
`(ts, data)` cache cell. -/
def get_crypto_top (cache_ts : ℤ) (cache_data : Option TopResult) (now : ℤ)
    (build : Except String TopResult) : TopResult × ℤ × Option TopResult :=
  match cache_data with
  | some d =>
    if now - cache_ts ≤ 30 then (d, cache_ts, some d)
    else (recompute_top now build, now, some (recompute_top now build))
  | none => (recompute_top now build, now, some (recompute_top now build))

/-! ## Rounding and clamp lemmas -/

theorem floor_le_roundHalfEven (x : ℚ) : ⌊x⌋ ≤ roundHalfEven x := by
  unfold roundHalfEven; split_ifs <;> omega

theorem roundHalfEven_le_floor_add_one (x : ℚ) : roundHalfEven x ≤ ⌊x⌋ + 1 := by
  unfold roundHalfEven; split_ifs <;> omega

theorem roundHalfEven_mono {x y : ℚ} (h : x ≤ y) :
    roundHalfEven x ≤ roundHalfEven y := by
  have hf : ⌊x⌋ ≤ ⌊y⌋ := Int.floor_le_floor h
  rcases lt_or_eq_of_le hf with hlt | heq
  · calc roundHalfEven x ≤ ⌊x⌋ + 1 := roundHalfEven_le_floor_add_one x
    _ ≤ ⌊y⌋ := by omega
    _ ≤ roundHalfEven y := floor_le_roundHalfEven y
  · unfold roundHalfEven
    rw [← heq]
    have hxy : x - (⌊x⌋ : ℚ) ≤ y - (⌊x⌋ : ℚ) := by linarith
    split_ifs <;> first | omega | linarith

theorem roundHalfEven_intCast (n : ℤ) : roundHalfEven (n : ℚ) = n := by
  unfold roundHalfEven
  rw [Int.floor_intCast]
  norm_num

theorem roundHalfEven_add_int (x : ℚ) (n : ℤ) (hn : n % 2 = 0) :
    roundHalfEven (x + n) = roundHalfEven x + n := by
  unfold roundHalfEven
  rw [Int.floor_add_int]
  have h : x + (n : ℚ) - ((⌊x⌋ + n : ℤ) : ℚ) = x - (⌊x⌋ : ℚ) := by
    push_cast; ring
  rw [h]
  split_ifs <;> omega

theorem roundTo_mono (n : ℕ) {x y : ℚ} (h : x ≤ y) : roundTo n x ≤ roundTo n y := by
  unfold roundTo
  have h1 : x * 10 ^ n ≤ y * 10 ^ n := by
    apply mul_le_mul_of_nonneg_right h
    positivity
  have h3 : ((roundHalfEven (x * 10 ^ n) : ℤ) : ℚ)
      ≤ ((roundHalfEven (y * 10 ^ n) : ℤ) : ℚ) := by
    exact_mod_cast roundHalfEven_mono h1
  apply div_le_div_of_nonneg_right h3
  positivity

theorem clamp_lb (x lo hi : ℚ) : lo ≤ clamp x lo hi := le_max_left _ _

theorem clamp_ub (x lo hi : ℚ) (h : lo ≤ hi) : clamp x lo hi ≤ hi :=
  max_le h (min_le_left _ _)

theorem clamp_eq_self (x lo hi : ℚ) (h1 : lo ≤ x) (h2 : x ≤ hi) :
    clamp x lo hi = x := by
  unfold clamp
  rw [min_eq_right h2, max_eq_right h1]

theorem clamp_mono (lo hi : ℚ) {x y : ℚ} (h : x ≤ y) :
    clamp x lo hi ≤ clamp y lo hi :=
  max_le_max le_rfl (min_le_min le_rfl h)

/-! ## Composite scorer theorems -/

/-- Claim C3: for every input (24h change, liquidity logarithm, spread
proxy, gate) the composite score lies in [0, 100] and is a whole number of
tenths, i.e. rounded to one decimal place. -/
theorem score_coin_bounds (p24 lg spread : ℚ) (gate : String) :
    0 ≤ score_coin p24 lg spread gate ∧ score_coin p24 lg spread gate ≤ 100 ∧
    ∃ n : ℤ, score_coin p24 lg spread gate = (n : ℚ) / 10 := by
  have h0 : 0 ≤ clamp (base_score p24 lg spread gate) 0 100 := clamp_lb _ _ _
  have h1 : clamp (base_score p24 lg spread gate) 0 100 ≤ 100 :=
    clamp_ub _ _ _ (by norm_num)
  have e : score_coin p24 lg spread gate
      = ((roundHalfEven (clamp (base_score p24 lg spread gate) 0 100 * 10) : ℤ) : ℚ) / 10 := by
    unfold score_coin roundTo
    norm_num
  have hlo : (0:ℤ) ≤ roundHalfEven (clamp (base_score p24 lg spread gate) 0 100 * 10) := by
    have h := @roundHalfEven_mono (((0:ℤ) : ℚ))
      (clamp (base_score p24 lg spread gate) 0 100 * 10) (by push_cast; linarith)
    rwa [roundHalfEven_intCast] at h
  have hhi : roundHalfEven (clamp (base_score p24 lg spread gate) 0 100 * 10) ≤ 1000 := by
    have h := @roundHalfEven_mono (clamp (base_score p24 lg spread gate) 0 100 * 10)
      (((1000:ℤ) : ℚ)) (by push_cast; linarith)
    rwa [roundHalfEven_intCast] at h
  refine ⟨?_, ?_, ⟨roundHalfEven (clamp (base_score p24 lg spread gate) 0 100 * 10), e⟩⟩
  · rw [e]
    have h2 : (0:ℚ) ≤ ((roundHalfEven (clamp (base_score p24 lg spread gate) 0 100 * 10) : ℤ) : ℚ) := by
      exact_mod_cast hlo
    linarith
  · rw [e]
    have h2 : ((roundHalfEven (clamp (base_score p24 lg spread gate) 0 100 * 10) : ℤ) : ℚ) ≤ 1000 := by
      exact_mod_cast hhi
    linarith

theorem roundTo_one_sub_ten (b : ℚ) : roundTo 1 (b - 10) = roundTo 1 b - 10 := by
  unfold roundTo
  have h : (b - 10) * 10 ^ 1 = b * 10 ^ 1 + ((-100 : ℤ) : ℚ) := by push_cast; ring
  rw [h, roundHalfEven_add_int _ (-100) (by decide)]
  push_cast
  ring

/-- Claim C5: with the 24h change fixed at 15 and any (volume-derived)
liquidity logarithm and spread proxy, scoring under a PANIC gate gives a
strictly lower score than scoring under a NEUTRAL gate. -/
theorem score_coin_panic_lt_neutral (lg spread : ℚ) :
    score_coin 15 lg spread "PANIC" < score_coin 15 lg spread "NEUTRAL" := by
  have hm : momentum_term 15 = 165/2 := by norm_num [momentum_term, clamp]
  have hv0 : 0 ≤ liquidity_term lg := clamp_lb _ _ _
  have hv1 : liquidity_term lg ≤ 100 := clamp_ub _ _ _ (by norm_num)
  have hs0 : 0 ≤ spread_term spread := clamp_lb _ _ _
  have hs1 : spread_term spread ≤ 100 := clamp_ub _ _ _ (by norm_num)
  have hgN : gate_penalized "NEUTRAL" = false := by decide
  have hgP : gate_penalized "PANIC" = true := by decide
  have hbN : base_score 15 lg spread "NEUTRAL"
      = 0.34 * momentum_term 15 + 0.52 * liquidity_term lg
        + 0.14 * spread_term spread := by
    unfold base_score
    rw [hgN]
    simp
  have hbP : base_score 15 lg spread "PANIC"
      = base_score 15 lg spread "NEUTRAL" - 10 := by
    unfold base_score
    rw [hgN, hgP]
    norm_num
    ring
  have h0N : 0 ≤ base_score 15 lg spread "NEUTRAL" := by rw [hbN, hm]; linarith
  have h1N : base_score 15 lg spread "NEUTRAL" ≤ 100 := by rw [hbN, hm]; linarith
  have h0P : 0 ≤ base_score 15 lg spread "PANIC" := by rw [hbP, hbN, hm]; linarith
  have h1P : base_score 15 lg spread "PANIC" ≤ 100 := by
    rw [hbP]; linarith
  unfold score_coin
  rw [clamp_eq_self _ _ _ h0N h1N, clamp_eq_self _ _ _ h0P h1P, hbP,
    roundTo_one_sub_ten]
  linarith

/-! ## Trend label theorems -/

/-- Counterexample to claim C6 as stated: when both EMAs are present and
equal (here both 1), the source labels the interval DOWN although
`ema20 < ema50` does not hold, so DOWN is not "exactly when ema20 < ema50". -/
theorem trend_label_equal_emas :
    trend_label ⟨none, some 1, some 1, none, none, none⟩ = some ("DOWN") ∧
    ¬ ((1:ℚ) < 1) := by
  constructor
  · norm_num [trend_label]
  · norm_num

/-- Claim C6 (amended): with both EMAs present the label is UP exactly when
`ema20 > ema50` and DOWN exactly when `ema20 ≤ ema50` (equality included),
and the label is None exactly when an EMA is missing. -/
theorem trend_label_characterization (ind : Ind) :
    (∀ a b, ind.ema20 = some a → ind.ema50 = some b →
      ((trend_label ind = some ("UP") ↔ b < a) ∧
       (trend_label ind = some ("DOWN") ↔ a ≤ b))) ∧
    (trend_label ind = none ↔ (ind.ema20 = none ∨ ind.ema50 = none)) := by
  obtain ⟨l, e20, e50, r, t, tp⟩ := ind
  cases e20 with
  | none =>
    refine ⟨fun a b h20 _ => by simp at h20, ?_⟩
    simp [trend_label]
  | some x =>
    cases e50 with
    | none =>
      refine ⟨fun a b _ h50 => by simp at h50, ?_⟩
      simp [trend_label]
    | some y =>
      refine ⟨fun a b h20 h50 => ?_, by simp [trend_label]⟩
      simp only [Option.some.injEq] at h20 h50
      subst h20; subst h50
      by_cases hab : y < x
      · constructor
        · simp [trend_label, hab]
        · simp only [trend_label, if_pos hab]
          constructor
          · intro hcon
            exact absurd hcon (by decide)
          · intro hle
            exact absurd hle (not_le.mpr hab)
      · constructor
        · simp only [trend_label, if_neg hab]
          constructor
          · intro hcon
            exact absurd hcon (by decide)
          · intro hlt
            exact absurd hlt hab
        · simp [trend_label, hab, not_lt.mp hab]

/-- Witness for C6 (amended) at a concrete indicator set with
ema20 = 2 > 1 = ema50. -/
theorem trend_label_characterization_witness :
    trend_label indUp = some ("UP") :=
  ((trend_label_characterization indUp).1 2 1 rfl rfl).1.mpr (by norm_num)

/-! ## Whale scan theorems -/

theorem scan_trades_go (threshold : ℚ) (trades : List AggTrade) :
    ∀ (b s : ℚ) (evs : List WhaleEvent),
    trades.foldl (scan_step threshold) (b, s, evs)
      = (b + buy_notional trades, s + sell_notional trades,
         evs ++ whale_events threshold trades) := by
  induction trades with
  | nil =>
    intro b s evs
    simp [buy_notional, sell_notional, whale_events]
  | cons tr rest ih =>
    intro b s evs
    rw [List.foldl_cons]
    have hstep : scan_step threshold (b, s, evs) tr
        = (if tr.m = true then b else b + tr.p * tr.q,
           if tr.m = true then s + tr.p * tr.q else s,
           if threshold ≤ tr.p * tr.q then evs ++ [whale_event_of tr] else evs) := rfl
    rw [hstep]
    have h3p : threshold ≤ tr.p * tr.q →
        whale_events threshold (tr :: rest)
          = whale_event_of tr :: whale_events threshold rest := by
      intro ht
      simp [whale_events, List.filter_cons, ht]
    have h3n : ¬ threshold ≤ tr.p * tr.q →
        whale_events threshold (tr :: rest) = whale_events threshold rest := by
      intro ht
      simp [whale_events, List.filter_cons, ht]
    by_cases hm : tr.m = true
    · have h1 : buy_notional (tr :: rest) = buy_notional rest := by
        simp [buy_notional, List.filter_cons, hm]
      have h2 : sell_notional (tr :: rest) = tr.p * tr.q + sell_notional rest := by
        simp [sell_notional, List.filter_cons, hm]
      by_cases ht : threshold ≤ tr.p * tr.q
      · rw [if_pos hm, if_pos hm, if_pos ht, ih, h1, h2, h3p ht]
        rw [Prod.mk.injEq, Prod.mk.injEq]
        exact ⟨by ring, by ring, by first | rfl | simp⟩
      · rw [if_pos hm, if_pos hm, if_neg ht, ih, h1, h2, h3n ht]
        rw [Prod.mk.injEq, Prod.mk.injEq]
        exact ⟨by ring, by ring, by first | rfl | simp⟩
    · have hm' : tr.m = false := by simpa using hm
      have h1 : buy_notional (tr :: rest) = tr.p * tr.q + buy_notional rest := by
        simp [buy_notional, List.filter_cons, hm']
      have h2 : sell_notional (tr :: rest) = sell_notional rest := by
        simp [sell_notional, List.filter_cons, hm']
      by_cases ht : threshold ≤ tr.p * tr.q
      · rw [if_neg hm, if_neg hm, if_pos ht, ih, h1, h2, h3p ht]
        rw [Prod.mk.injEq, Prod.mk.injEq]
        exact ⟨by ring, by ring, by first | rfl | simp⟩
      · rw [if_neg hm, if_neg hm, if_neg ht, ih, h1, h2, h3n ht]
        rw [Prod.mk.injEq, Prod.mk.injEq]
        exact ⟨by ring, by ring, by first | rfl | simp⟩

/-- Claim C7: the per-symbol tape scan accumulates `price*qty` into the sell
notional (side SELL) exactly for maker-flagged trades and into the buy
notional (side BUY) otherwise, and emits one whale event exactly for the
trades with `notional >= threshold`; in particular a trade whose notional
equals the threshold is included (inclusive comparison). -/
theorem scan_trades_spec (threshold : ℚ) (trades : List AggTrade) :
    scan_trades threshold trades
      = (buy_notional trades, sell_notional trades, whale_events threshold trades) ∧
    ∀ tr ∈ trades, tr.p * tr.q = threshold →
      whale_event_of tr ∈ (scan_trades threshold trades).2.2 := by
  have h1 : scan_trades threshold trades
      = (buy_notional trades, sell_notional trades, whale_events threshold trades) := by
    unfold scan_trades
    rw [scan_trades_go threshold trades 0 0 []]
    simp
  refine ⟨h1, ?_⟩
  intro tr htr heq
  rw [h1]
  unfold whale_events
  apply List.mem_map_of_mem
  rw [List.mem_filter]
  refine ⟨htr, ?_⟩
  simp [heq]

/-- Witness for C7: a single maker-flagged trade of price 100 and quantity
7500 has notional exactly 750000 = threshold and produces exactly one SELL
whale event. -/
theorem scan_trades_threshold_edge :
    scan_trades 750000 [⟨100, 7500, true, 0⟩]
      = (0, 750000, [⟨"SELL", 750000, 100, 7500, 0⟩]) ∧
    whale_event_of ⟨100, 7500, true, 0⟩
      ∈ (scan_trades 750000 [⟨100, 7500, true, 0⟩]).2.2 := by
  constructor
  · rw [(scan_trades_spec 750000 [⟨100, 7500, true, 0⟩]).1]
    rw [Prod.mk.injEq, Prod.mk.injEq]
    refine ⟨?_, ?_, ?_⟩
    · norm_num [buy_notional, List.filter_cons]
    · norm_num [sell_notional, List.filter_cons]
    · have hev : whale_event_of (⟨100, 7500, true, 0⟩ : AggTrade)
          = ⟨"SELL", 750000, 100, 7500, 0⟩ := by
        unfold whale_event_of
        norm_num [roundTo, roundHalfEven]
      rw [whale_events, List.filter_cons]
      norm_num [hev]
  · exact (scan_trades_spec 750000 [⟨100, 7500, true, 0⟩]).2 _ (by simp) (by norm_num)

/-! ## Top-picks accessor theorems -/

/-- Claim C8: when the cache cannot serve (no data, or data older than the
30-second TTL) and the rebuild raises any exception, the accessor still
returns a structurally complete payload whose pick list is empty and whose
warnings list is non-empty; being a total function, it never propagates the
exception. -/
theorem get_crypto_top_degrades (cache_ts now : ℤ) (cache_data : Option TopResult)
    (e : String) (hmiss : cache_data = none ∨ 30 < now - cache_ts) :
    (get_crypto_top cache_ts cache_data now (Except.error e)).1.top_picks = [] ∧
    (get_crypto_top cache_ts cache_data now (Except.error e)).1.warnings ≠ [] := by
  rcases hmiss with h | h
  · subst h
    simp [get_crypto_top, recompute_top, fallback_top]
  · cases cache_data with
    | none => simp [get_crypto_top, recompute_top, fallback_top]
    | some d =>
      have hfresh : ¬ (now - cache_ts ≤ 30) := by omega
      simp [get_crypto_top, hfresh, recompute_top, fallback_top]

/-- Witness for C8: cold cache, failing build. -/
theorem get_crypto_top_degrades_witness :
    (get_crypto_top 0 none 100 (Except.error ("boom"))).1.top_picks = [] ∧
    (get_crypto_top 0 none 100 (Except.error ("boom"))).1.warnings ≠ [] :=
  get_crypto_top_degrades 0 100 none ("boom") (Or.inl rfl)

theorem passes_filters_true_iff (r : Row) :
    passes_filters r = true ↔
      (¬ r.vol24_usd < 60000000 ∧ ¬ (|r.chg24_pct| < 2 ∨ 25 < |r.chg24_pct|) ∧
       ¬ r.price < 1/100000) := by
  unfold passes_filters
  split_ifs with h1 h2 h3 <;> simp_all

/-- Claim C10: every ranked candidate that survives `build_top_picks` has
price at least 0.00001, and a row with positive price strictly below
0.00001 is rejected by the filter stage even when it satisfies the volume
floor and the 24h-change band. -/
theorem build_top_picks_price_floor (log10f : ℚ → ℚ) (gate : String)
    (rows : List Row) :
    (∀ p ∈ build_top_picks log10f gate rows, 1/100000 ≤ p.price) ∧
    (∀ r : Row, 60000000 ≤ r.vol24_usd → 2 ≤ |r.chg24_pct| → |r.chg24_pct| ≤ 25 →
      0 < r.price → r.price < 1/100000 → passes_filters r = false) := by
  constructor
  · intro p hp
    have hp1 : p ∈ (rows.filter passes_filters).map (pick_of log10f gate) := by
      have h := List.mem_of_mem_take hp
      rwa [List.mem_mergeSort] at h
    obtain ⟨r, hr, rfl⟩ := List.mem_map.mp hp1
    have hrf : passes_filters r = true := (List.mem_filter.mp hr).2
    have hprice : 1/100000 ≤ r.price :=
      not_lt.mp ((passes_filters_true_iff r).mp hrf).2.2
    have hfloor : roundTo 8 (1/100000 : ℚ) = 1/100000 := by
      norm_num [roundTo, roundHalfEven]
    calc (1/100000 : ℚ) = roundTo 8 (1/100000) := hfloor.symm
    _ ≤ roundTo 8 r.price := roundTo_mono 8 hprice
  · intro r h1 h2 h3 h4 h5
    unfold passes_filters
    split_ifs with a b c <;> first | rfl | exact absurd h5 c

/-- Witness for C10: a row with price 0.000005, 24h change 5 and volume
100000000 passes the documented volume and change filters but is rejected. -/
theorem build_top_picks_price_floor_witness :
    passes_filters ⟨"X", "XUSDT", 1/200000, 5, 100000000⟩ = false := by
  have habs : |(5:ℚ)| = 5 := abs_of_pos (by norm_num)
  refine (build_top_picks_price_floor (fun _ => 0) ("NEUTRAL") []).2 _ ?_ ?_ ?_ ?_ ?_
  · norm_num
  · rw [show (⟨"X", "XUSDT", 1/200000, 5, 100000000⟩ : Row).chg24_pct = 5 from rfl, habs]
    norm_num
  · rw [show (⟨"X", "XUSDT", 1/200000, 5, 100000000⟩ : Row).chg24_pct = 5 from rfl, habs]
    norm_num
  · norm_num
  · norm_num

/-! ## Verdict rule-table theorems -/

/-- Claim C1: for every triple of indicator sets and every gate, the verdict
of `simple_ai_signal` equals the spec's rule table (PANIC short-circuits to
AVOID; two DOWN votes give AVOID; two UP votes give WAIT under a hot 4h RSI
and otherwise BUY, downgraded to WAIT under a BEARISH gate; otherwise
WAIT), and consequently the verdict is never BUY under a BEARISH or PANIC
gate. -/
theorem simple_ai_signal_rule_table (i1 i4 i1d : Ind) (gate : String) :
    (simple_ai_signal i1 i4 i1d gate).1 = verdict_table i1 i4 i1d gate ∧
    ((gate = "BEARISH" ∨ gate = "PANIC") →
      (simple_ai_signal i1 i4 i1d gate).1 ≠ "BUY") := by
  have hwb : ("WAIT" : String) ≠ "BUY" := by decide
  have hab : ("AVOID" : String) ≠ "BUY" := by decide
  have h1 : (simple_ai_signal i1 i4 i1d gate).1 = verdict_table i1 i4 i1d gate := by
    unfold simple_ai_signal verdict_table
    by_cases hp : gate = "PANIC"
    · simp [hp]
    · simp only [if_neg hp]
      by_cases hd : 2 ≤ down_votes i1 i4 i1d
      · simp [hd, hab]
      · simp only [if_neg hd]
        by_cases hu : 2 ≤ up_votes i1 i4 i1d
        · by_cases hh : rsi_hot i4.rsi
          · simp [hu, hh, hwb]
          · by_cases hb : gate = "BEARISH"
            · simp [hu, hh, hb]
            · simp [hu, hh, hb]
        · simp [hu, hwb]
  refine ⟨h1, ?_⟩
  intro hg
  rw [h1]
  unfold verdict_table
  rcases hg with rfl | rfl
  · split_ifs <;> first | exact hab | exact hwb | simp_all
  · split_ifs <;> first | exact hab | exact hwb | simp_all

/-- Witness for C1: three UP intervals under a NEUTRAL gate give BUY, and
the same indicators under a BEARISH gate do not. -/
theorem simple_ai_signal_rule_table_witness :
    (simple_ai_signal indUp indUp indUp ("NEUTRAL")).1 = "BUY" ∧
    (simple_ai_signal indUp indUp indUp ("BEARISH")).1 ≠ "BUY" := by
  constructor
  · rw [(simple_ai_signal_rule_table indUp indUp indUp ("NEUTRAL")).1]
    decide
  · exact (simple_ai_signal_rule_table indUp indUp indUp ("BEARISH")).2 (Or.inl rfl)

/-! ## RSI theorems -/

theorem diffs_pos (values : List ℚ) (h : values.Chain' (· < ·)) :
    ∀ d ∈ diffs values, 0 < d := by
  induction values with
  | nil => simp [diffs]
  | cons a t ih =>
    cases t with
    | nil => simp [diffs]
    | cons b rest =>
      rw [List.chain'_cons] at h
      intro d hd
      rw [show diffs (a :: b :: rest) = (b - a) :: diffs (b :: rest) from rfl,
        List.mem_cons] at hd
      rcases hd with rfl | hd
      · linarith [h.1]
      · exact ih h.2 d hd

theorem foldl_wilder_nonneg (period : ℕ) (hp : 0 < period) (f : ℚ → ℚ)
    (hf : ∀ d, 0 ≤ f d) :
    ∀ (l : List ℚ) (a : ℚ), 0 ≤ a →
      0 ≤ l.foldl (fun a d => wilder period a (f d)) a := by
  intro l
  induction l with
  | nil => intro a ha; simpa using ha
  | cons d t ih =>
    intro a ha
    rw [List.foldl_cons]
    apply ih
    unfold wilder
    have h1 : (1:ℚ) ≤ (period : ℚ) := by exact_mod_cast hp
    apply div_nonneg
    · have h2 : 0 ≤ a * ((period : ℚ) - 1) := mul_nonneg ha (by linarith)
      linarith [hf d]
    · linarith

theorem foldl_wilder_zero (period : ℕ) (f : ℚ → ℚ) :
    ∀ (l : List ℚ), (∀ d ∈ l, f d = 0) →
      l.foldl (fun a d => wilder period a (f d)) 0 = 0 := by
  intro l
  induction l with
  | nil => intro _; simp
  | cons d t ih =>
    intro hl
    rw [List.foldl_cons]
    have hd : f d = 0 := hl d (List.mem_cons_self d t)
    have hstep : wilder period 0 (f d) = 0 := by
      unfold wilder
      rw [hd]
      simp
    rw [hstep]
    exact ih (fun x hx => hl x (List.mem_cons_of_mem d hx))

theorem smoothAvg_nonneg (f : ℚ → ℚ) (hf : ∀ d, 0 ≤ f d)
    (values : List ℚ) (period : ℕ) (hp : 0 < period) :
    0 ≤ smoothAvg f values period := by
  unfold smoothAvg
  apply foldl_wilder_nonneg period hp f hf
  unfold seedAvg
  apply div_nonneg
  · apply List.sum_nonneg
    intro x hx
    obtain ⟨d, _, rfl⟩ := List.mem_map.mp hx
    exact hf d
  · positivity

theorem avgLoss_zero_of_rising (values : List ℚ) (period : ℕ)
    (h : values.Chain' (· < ·)) : avgLoss values period = 0 := by
  have hzero : ∀ d ∈ diffs values, loss d = 0 := by
    intro d hd
    have := diffs_pos values h d hd
    unfold loss
    rw [max_eq_right (by linarith)]
  unfold avgLoss smoothAvg
  have hseed : seedAvg loss values period = 0 := by
    unfold seedAvg
    have hsum : (((diffs values).take period).map loss).sum = 0 := by
      apply List.sum_eq_zero
      intro x hx
      obtain ⟨d, hd, rfl⟩ := List.mem_map.mp hx
      exact hzero d (List.mem_of_mem_take hd)
    rw [hsum]
    simp
  rw [hseed]
  exact foldl_wilder_zero period loss _
    (fun d hd => hzero d (List.mem_of_mem_drop hd))

/-- Claim C2: `rsi` returns None exactly on series shorter than period+1;
otherwise it returns 100 exactly when the smoothed average loss (simple
mean of the first `period` deltas, Wilder-smoothed over the rest) is zero
and `100 - 100/(1 + avgGain/avgLoss)` otherwise; every strictly rising
series longer than `period` yields exactly 100; and every returned value
lies in [0, 100]. -/
theorem rsi_spec (values : List ℚ) (period : ℕ) (hp : 0 < period) :
    (values.length < period + 1 → rsi values period = none) ∧
    (period + 1 ≤ values.length →
      rsi values period = if avgLoss values period = 0 then some 100
        else some (100 - 100 / (1 + avgGain values period / avgLoss values period))) ∧
    (period < values.length → values.Chain' (· < ·) →
      rsi values period = some 100) ∧
    (∀ x, rsi values period = some x → 0 ≤ x ∧ x ≤ 100) := by
  refine ⟨?_, ?_, ?_, ?_⟩
  · intro h
    unfold rsi
    rw [if_pos h]
  · intro h
    unfold rsi
    rw [if_neg (not_lt.mpr h)]
  · intro hlen hchain
    unfold rsi
    rw [if_neg (by omega), if_pos (avgLoss_zero_of_rising values period hchain)]
  · intro x hx
    unfold rsi at hx
    split_ifs at hx with h1 h2
    · rw [Option.some.injEq] at hx
      subst hx
      norm_num
    · rw [Option.some.injEq] at hx
      have hg : 0 ≤ avgGain values period :=
        smoothAvg_nonneg gain (fun d => le_max_right _ _) values period hp
      have hl0 : 0 ≤ avgLoss values period :=
        smoothAvg_nonneg loss (fun d => le_max_right _ _) values period hp
      have hl : 0 < avgLoss values period := lt_of_le_of_ne hl0 (Ne.symm h2)
      have hdiv : 0 ≤ avgGain values period / avgLoss values period :=
        div_nonneg hg hl0
      have hden : (1:ℚ) ≤ 1 + avgGain values period / avgLoss values period := by
        linarith
      have hfrac_pos : 0 < 100 / (1 + avgGain values period / avgLoss values period) := by
        positivity
      have hfrac_le : 100 / (1 + avgGain values period / avgLoss values period) ≤ 100 := by
        rw [div_le_iff (by linarith)]
        nlinarith
      subst hx
      exact ⟨by linarith, by linarith⟩

/-- Witness for C2: a strictly rising 15-element series with period 14
yields exactly 100. -/
theorem rsi_spec_witness :
    (0:ℕ) < 14 ∧
    rsi ([1,2,3,4,5,6,7,8,9,10,11,12,13,14,15] : List ℚ) 14 = some 100 := by
  refine ⟨by norm_num, ?_⟩
  apply (rsi_spec ([1,2,3,4,5,6,7,8,9,10,11,12,13,14,15] : List ℚ) 14 (by norm_num)).2.2.1
  · simp
  · simp only [List.chain'_cons, List.chain'_singleton, and_true]
    norm_num

/-- Counterexample to claim C4 as stated: the 24h changes 2 and 2.001 lie
in the clamp band and differ, yet after the final rounding to one decimal
both score 81.4 (with the liquidity logarithm 10, i.e. volume 10^10, spread
hint 0.002, gate NEUTRAL), so the final composite score is not strictly
increasing in the change. -/
theorem score_coin_rounding_ties :
    (-18:ℚ) ≤ 2 ∧ (2:ℚ) < 2001/1000 ∧ (2001/1000:ℚ) ≤ 22 ∧
    score_coin 2 10 (1/500) ("NEUTRAL")
      = score_coin (2001/1000) 10 (1/500) ("NEUTRAL") := by
  have hg : gate_penalized ("NEUTRAL") = false := by decide
  have h1 : score_coin 2 10 (1/500) ("NEUTRAL") = 407/5 := by
    norm_num [score_coin, base_score, momentum_term, liquidity_term,
      spread_term, clamp, hg, roundTo, roundHalfEven]
  have h2 : score_coin (2001/1000) 10 (1/500) ("NEUTRAL") = 407/5 := by
    norm_num [score_coin, base_score, momentum_term, liquidity_term,
      spread_term, clamp, hg, roundTo, roundHalfEven]
  exact ⟨by norm_num, by norm_num, by norm_num, by rw [h1, h2]⟩

/-- Claim C4 (amended): with volume, spread and a non-penalizing gate held
fixed, the momentum sub-score is strictly increasing in the 24h change
inside the clamp band [-18, 22]; the final composite score is monotone
non-decreasing (the 1-decimal rounding can collapse two nearby changes to
the same score, so strictness fails for the rounded value); and beyond the
clamp ceiling 22 the score is flat. -/
theorem score_coin_monotone_in_change (lg spread : ℚ) (gate : String)
    (p1 p2 : ℚ) (hg1 : gate ≠ "BEARISH") (hg2 : gate ≠ "PANIC") :
    (-18 ≤ p1 → p1 < p2 → p2 ≤ 22 → momentum_term p1 < momentum_term p2) ∧
    (p1 ≤ p2 → score_coin p1 lg spread gate ≤ score_coin p2 lg spread gate) ∧
    (22 ≤ p1 → 22 ≤ p2 →
      score_coin p1 lg spread gate = score_coin p2 lg spread gate) := by
  have hgp : gate_penalized gate = false := by
    unfold gate_penalized
    rw [beq_eq_false_iff_ne.mpr hg1, beq_eq_false_iff_ne.mpr hg2]
    rfl
  have hbase : ∀ q, base_score q lg spread gate
      = 0.34 * momentum_term q + 0.52 * liquidity_term lg
        + 0.14 * spread_term spread := by
    intro q
    unfold base_score
    rw [hgp]
    simp
  have hmom : ∀ p : ℚ, -18 ≤ p → p ≤ 22 → momentum_term p = (p + 18) / 40 * 100 := by
    intro p h1 h2
    unfold momentum_term
    rw [clamp_eq_self p _ _ h1 h2]
    exact clamp_eq_self _ _ _ (by linarith) (by linarith)
  have hmono : ∀ {a b : ℚ}, a ≤ b → momentum_term a ≤ momentum_term b := by
    intro a b h
    unfold momentum_term
    apply clamp_mono
    have h2 := clamp_mono (-18) 22 h
    linarith
  have hm22 : ∀ p : ℚ, 22 ≤ p → momentum_term p = 100 := by
    intro p hP
    have hc : clamp p (-18) 22 = 22 := by
      unfold clamp
      rw [min_eq_left hP]
      norm_num
    unfold momentum_term
    rw [hc]
    norm_num [clamp]
  refine ⟨?_, ?_, ?_⟩
  · intro h1 h2 h3
    rw [hmom p1 h1 (by linarith), hmom p2 (by linarith) h3]
    linarith
  · intro h
    unfold score_coin
    apply roundTo_mono
    apply clamp_mono
    rw [hbase p1, hbase p2]
    have h2 := hmono h
    linarith
  · intro h1 h2
    unfold score_coin
    rw [hbase p1, hbase p2, hm22 p1 h1, hm22 p2 h2]

/-- Witness for C4 (amended): strict momentum growth from 0 to 10, monotone
scores, and flat scores at 25 and 30, all under a NEUTRAL gate. -/
theorem score_coin_monotone_in_change_witness :
    momentum_term 0 < momentum_term 10 ∧
    score_coin 0 9 (1/500) ("NEUTRAL") ≤ score_coin 10 9 (1/500) ("NEUTRAL") ∧
    score_coin 25 9 (1/500) ("NEUTRAL") = score_coin 30 9 (1/500) ("NEUTRAL") := by
  refine ⟨?_, ?_, ?_⟩
  · exact (score_coin_monotone_in_change 9 (1/500) ("NEUTRAL") 0 10
      (by decide) (by decide)).1 (by norm_num) (by norm_num) (by norm_num)
  · exact (score_coin_monotone_in_change 9 (1/500) ("NEUTRAL") 0 10
      (by decide) (by decide)).2.1 (by norm_num)
  · exact (score_coin_monotone_in_change 9 (1/500) ("NEUTRAL") 25 30
      (by decide) (by decide)).2.2 (by norm_num) (by norm_num)

/-! ## Scalp filter theorems -/

/-- Claim C9: every opportunity emitted by the scalp filter has its
reward-risk field in [1, 3.75], because the take fraction is clamped to
[0.02, 0.03] and the stop fraction to [0.008, 0.02] before the quotient
`takeFraction / max(stopFraction, 1e-6)` is formed. -/
theorem scalp_item_rr_bounds (gate ai : String) (price atrv : ℚ)
    (rsi1h : Option ℚ) (o : ScalpOpp)
    (h : scalp_item gate ai price atrv rsi1h = some o) :
    1 ≤ o.rr ∧ o.rr ≤ 3.75 := by
  unfold scalp_item at h
  split_ifs at h with h1 h2 h3 h4
  simp only [Option.some.injEq] at h
  subst h
  dsimp only
  have htp1 : (0.02:ℚ) ≤ clamp (1.8 * atrv / price) 0.02 0.03 := clamp_lb _ _ _
  have htp2 : clamp (1.8 * atrv / price) 0.02 0.03 ≤ 0.03 :=
    clamp_ub _ _ _ (by norm_num)
  have hsl1 : (0.008:ℚ) ≤ clamp (1.2 * atrv / price) 0.008 0.02 := clamp_lb _ _ _
  have hsl2 : clamp (1.2 * atrv / price) 0.008 0.02 ≤ 0.02 :=
    clamp_ub _ _ _ (by norm_num)
  have hslpos : 0 < clamp (1.2 * atrv / price) 0.008 0.02 := by linarith
  have hmax : max (clamp (1.2 * atrv / price) 0.008 0.02) (1/1000000)
      = clamp (1.2 * atrv / price) 0.008 0.02 := max_eq_left (by linarith)
  have hr1 : 1 ≤ clamp (1.8 * atrv / price) 0.02 0.03
      / clamp (1.2 * atrv / price) 0.008 0.02 :=
    (one_le_div hslpos).mpr (by linarith)
  have hr2 : clamp (1.8 * atrv / price) 0.02 0.03
      / clamp (1.2 * atrv / price) 0.008 0.02 ≤ 3.75 := by
    rw [div_le_iff hslpos]
    linarith
  have e1 : roundTo 2 (1:ℚ) = 1 := by norm_num [roundTo, roundHalfEven]
  have e2 : roundTo 2 (3.75:ℚ) = 3.75 := by norm_num [roundTo, roundHalfEven]
  constructor
  · calc (1:ℚ) = roundTo 2 1 := e1.symm
    _ ≤ _ := roundTo_mono 2 (by rw [hmax]; exact hr1)
  · calc roundTo 2 (clamp (1.8 * atrv / price) 0.02 0.03
        / max (clamp (1.2 * atrv / price) 0.008 0.02) (1/1000000))
        ≤ roundTo 2 3.75 := roundTo_mono 2 (by rw [hmax]; exact hr2)
    _ = 3.75 := e2

/-- Witness for C9: gate NEUTRAL, verdict BUY, price 100, 4h ATR 1.5 and no
1h RSI produce an opportunity with reward-risk 1.5. -/
theorem scalp_item_rr_bounds_witness :
    scalp_item ("NEUTRAL") ("BUY") 100 (3/2) none = some scalpOppW ∧
    1 ≤ scalpOppW.rr ∧ scalpOppW.rr ≤ 3.75 := by
  have hg1 : ¬ (("NEUTRAL":String) = "PANIC") := by decide
  have hg2 : ¬ (("BUY":String) = "AVOID") := by decide
  have h : scalp_item ("NEUTRAL") ("BUY") 100 (3/2) none = some scalpOppW := by
    norm_num [scalp_item, clamp, rsi_over75, roundTo, roundHalfEven,
      scalpOppW, hg1, hg2]
  exact ⟨h, (scalp_item_rr_bounds _ _ _ _ _ _ h).1,
    (scalp_item_rr_bounds _ _ _ _ _ _ h).2⟩
